import Mathlib

/- Verification of the comments widget of the site: the GraphQL query builder,
the 8-second time-bounded read fetch, the JSON envelope access, the thread
renderer, the composer submit handler and the relative-time formatter.
All definitions are shallow embeddings of the current comments script
(the second script in src/unnamed/part_001, lines 130-299). -/

namespace CommentsWidget

set_option maxRecDepth 16384

/-! ### Decimal rendering of numbers (JS template-literal interpolation of a number) -/

/-- The character for a single decimal digit `d < 10`. -/
def digitCh (d : Nat) : Char := Char.ofNat (48 + d)

/-- Decimal digit list, fuelled so that it is structurally recursive; `fuel`
bounds the number of digits and `n + 1` is always enough fuel. -/
def natDigitsAux : Nat → Nat → List Char
  | 0, _ => []
  | fuel + 1, n =>
    if n < 10 then [digitCh n]
    else natDigitsAux fuel (n / 10) ++ [digitCh (n % 10)]

/-- Decimal digit list of a natural number, most significant first
(the rendering JS produces for a nonnegative integer in `${...}`). -/
def natDigits (n : Nat) : List Char := natDigitsAux (n + 1) n

/-- Decimal string of a natural number. -/
def natToString (n : Nat) : String := ⟨natDigits n⟩

/-- Decimal string of an integer, with a leading minus sign when negative
(the rendering JS produces for an integer in `${...}`). -/
def intToString : Int → String
  | Int.ofNat m => natToString m
  | Int.negSucc m => "-" ++ natToString (m + 1)

theorem digitCh_isDigit {d : Nat} (h : d < 10) : (digitCh d).isDigit = true := by
  interval_cases d <;> decide

theorem natDigits_ne_nil (n : Nat) : natDigits n ≠ [] := by
  show natDigitsAux (n + 1) n ≠ []
  unfold natDigitsAux
  split <;> simp

theorem natDigitsAux_all_digit (fuel : Nat) :
    ∀ n, ∀ c ∈ natDigitsAux fuel n, c.isDigit = true := by
  induction fuel with
  | zero => intro n c hc; simp [natDigitsAux] at hc
  | succ fuel ih =>
    intro n c hc
    unfold natDigitsAux at hc
    by_cases h : n < 10
    · rw [if_pos h] at hc
      simp only [List.mem_singleton] at hc
      subst hc
      exact digitCh_isDigit h
    · rw [if_neg h] at hc
      rcases List.mem_append.1 hc with h1 | h2
      · exact ih (n / 10) c h1
      · simp only [List.mem_singleton] at h2
        subst h2
        exact digitCh_isDigit (Nat.mod_lt _ (by omega))

theorem natDigits_all_digit (n : Nat) : ∀ c ∈ natDigits n, c.isDigit = true :=
  natDigitsAux_all_digit (n + 1) n

/-! ### The relative-time formatter `timeAgo` (source lines 283-299)

Timestamps are integer milliseconds (`Date.getTime()` / `Date.now()`);
`Math.floor` of a quotient of integers is `Int.fdiv`. -/

/-- Body of `timeAgo` as a function of the millisecond difference `now - then`. -/
def timeAgoMs (deltaMs : Int) : String :=
  let diff := deltaMs.fdiv 1000
  if diff < 60 then intToString diff ++ "s ago"
  else
    let minutes := diff.fdiv 60
    if minutes < 60 then intToString minutes ++ "m ago"
    else
      let hours := minutes.fdiv 60
      if hours < 24 then intToString hours ++ "h ago"
      else intToString (hours.fdiv 24) ++ "d ago"

/-- The formatter `timeAgo(isoString)` at a current clock `nowMs`, where
`thenMs` is the parsed timestamp `new Date(isoString).getTime()`. -/
def timeAgo (thenMs nowMs : Int) : String := timeAgoMs (nowMs - thenMs)

/-- Spec-side bucket mapping, stated on the nonnegative difference in seconds:
seconds below 60, minutes below 60 minutes, hours below 24 hours, days otherwise. -/
def specBuckets (s : Nat) : String :=
  if s < 60 then natToString s ++ "s ago"
  else if s < 3600 then natToString (s / 60) ++ "m ago"
  else if s < 86400 then natToString (s / 3600) ++ "h ago"
  else natToString (s / 86400) ++ "d ago"

theorem fdiv_ofNat (m n : Nat) :
    (Int.ofNat m).fdiv (Int.ofNat n) = Int.ofNat (m / n) := by
  cases m with
  | zero =>
    show (0 : Int) = Int.ofNat (0 / n)
    rw [Nat.zero_div]
    rfl
  | succ m => rfl

theorem intToString_ofNat (m : Nat) : intToString (Int.ofNat m) = natToString m := rfl

theorem ofNat_lt_ofNat {m n : Nat} : (Int.ofNat m < Int.ofNat n) ↔ m < n := Int.ofNat_lt

theorem timeAgoMs_ofNat (D : Nat) : timeAgoMs (Int.ofNat D) = specBuckets (D / 1000) := by
  unfold timeAgoMs specBuckets
  have e1000 : (1000 : Int) = Int.ofNat 1000 := rfl
  have e60 : (60 : Int) = Int.ofNat 60 := rfl
  have e24 : (24 : Int) = Int.ofNat 24 := rfl
  simp only [e1000, e60, e24, fdiv_ofNat, ofNat_lt_ofNat, intToString_ofNat]
  have h6060 : D / 1000 / 60 / 60 = D / 1000 / 3600 := by
    rw [Nat.div_div_eq_div_mul]
  have h86400 : D / 1000 / 60 / 60 / 24 = D / 1000 / 86400 := by
    rw [Nat.div_div_eq_div_mul, Nat.div_div_eq_div_mul]
  by_cases h1 : D / 1000 < 60
  · simp [h1]
  · simp only [if_neg h1]
    by_cases h2 : D / 1000 < 3600
    · have hm : D / 1000 / 60 < 60 := by omega
      simp [hm, h2]
    · have hm : ¬ D / 1000 / 60 < 60 := by omega
      simp only [if_neg hm, if_neg h2]
      rw [h6060]
      have h3600_24 : D / 1000 / 3600 / 24 = D / 1000 / 86400 := by
        rw [Nat.div_div_eq_div_mul]
      by_cases h3 : D / 1000 < 86400
      · have hh : D / 1000 / 3600 < 24 := by omega
        simp [hh, h3]
      · have hh : ¬ D / 1000 / 3600 < 24 := by omega
        simp [hh, h3, h3600_24]

/-! ### JavaScript values and property access

The decoded JSON envelope is a dynamic JS value; `data.data.repository.discussion`
is a chain of property accesses, each of which throws a `TypeError` when the
receiver is `null` or `undefined`, and yields `undefined` for an absent field. -/

/-- JS runtime errors relevant to the pipeline, identified as the `.catch`
handler identifies them: by their `name` property. -/
inductive JsErr where
  | abortError
  | networkError (msg : String)
  | typeError
  | syntaxError
deriving DecidableEq

/-- The `name` property of a JS error: `AbortError` for an aborted fetch,
`TypeError` for a network failure of `fetch` and for a property access on
`null`/`undefined`, `SyntaxError` for `res.json()` on a malformed body. -/
def errName : JsErr → String
  | .abortError => "AbortError"
  | .networkError _ => "TypeError"
  | .typeError => "TypeError"
  | .syntaxError => "SyntaxError"

/-- Dynamic JS values (the shape a decoded JSON envelope can take). -/
inductive JsVal where
  | jsUndefined
  | jsNull
  | bool (b : Bool)
  | num (n : Int)
  | str (s : String)
  | obj (fields : List (String × JsVal))

/-- JS truthiness: `undefined`, `null`, `false`, `0`, `""` are falsy. -/
def truthy : JsVal → Bool
  | .jsUndefined => false
  | .jsNull => false
  | .bool b => b
  | .num n => n != 0
  | .str s => s != ""
  | .obj _ => true

/-- JS property access `v[k]`: throws `TypeError` on `null`/`undefined`,
returns the field (or `undefined` when absent) on an object, and `undefined`
on the remaining primitives. -/
def getProp : JsVal → String → Except JsErr JsVal
  | .jsUndefined, _ => .error .typeError
  | .jsNull, _ => .error .typeError
  | .obj fields, k => .ok ((fields.lookup k).getD .jsUndefined)
  | .bool _, _ => .ok .jsUndefined
  | .num _, _ => .ok .jsUndefined
  | .str _, _ => .ok .jsUndefined

/-- The extraction `data.data.repository.discussion` (source line 182): three
chained property accesses on the decoded envelope, the first thrown
`TypeError` short-circuiting the statement. -/
def extractDiscussion (data : JsVal) : Except JsErr JsVal :=
  match getProp data "data" with
  | .error e => .error e
  | .ok d =>
    match getProp d "repository" with
    | .error e => .error e
    | .ok r => getProp r "discussion"

theorem getProp_error {w : JsVal} {k : String} {e : JsErr}
    (h : getProp w k = .error e) : e = .typeError := by
  cases w <;> simp [getProp] at h <;> exact h.symm

/-- The only error the extraction can produce is the `TypeError` of a property
access on a missing parent. -/
theorem extract_error_name {data : JsVal} {e : JsErr}
    (he : extractDiscussion data = .error e) : errName e = "TypeError" := by
  unfold extractDiscussion at he
  split at he
  · rename_i e1 hg1
    cases he
    rw [getProp_error hg1]
    rfl
  · rename_i d1 hg1
    split at he
    · rename_i e2 hg2
      cases he
      rw [getProp_error hg2]
      rfl
    · rename_i r hg2
      rw [getProp_error he]
      rfl

/-! ### The GraphQL query template (source lines 134-165)

The template literal is a fixed prefix, the interpolated discussion number and
a fixed suffix. Braces are written `\x7b`/`\x7d`. -/

/-- Template text before the argument of `discussion(number: `. -/
def queryPreA : String :=
  "\nquery \x7b\n  repository(owner: \"SwiftFoxx\", name: \"swiftblog-feedback\") \x7b\n    "

/-- The text introducing the discussion-number position. -/
def numberMarker : String := "discussion(number: "

/-- Everything in the template before the interpolated number. -/
def queryPre : String := queryPreA ++ numberMarker

/-- Everything in the template after the interpolated number. -/
def queryPost : String :=
  ") \x7b\n      id\n      title\n      body\n      comments(first: 50) \x7b\n        nodes \x7b\n          id\n          body\n          createdAt\n          author \x7b\n            login\n            avatarUrl\n          \x7d\n          replies(first: 50) \x7b\n            nodes \x7b\n              id\n              body\n              author \x7b\n                login\n                avatarUrl\n              \x7d\n            \x7d\n          \x7d\n        \x7d\n      \x7d\n    \x7d\n  \x7d\n\x7d\n"

/-- The query builder as a pure function of a numeric discussion identifier:
the template literal with the number interpolated in decimal. -/
def query (n : Nat) : String := queryPre ++ natToString n ++ queryPost

/-- The script-tag configuration surface: the two data attributes read at load
time (source lines 130-132). -/
structure ScriptDataset where
  token : String
  discussion : String

/-- The query string the script builds on a page load: the template with the
raw `data-discussion` attribute value interpolated (source lines 132-165). -/
def queryOfDataset (ds : ScriptDataset) : String :=
  queryPre ++ ds.discussion ++ queryPost

/-- The read request assembled at load time (source lines 170-178). -/
structure ReadRequest where
  url : String
  method : String
  authHeader : String
  queryBody : String

/-- The read request as a function of the script-tag dataset: fixed endpoint
and method, bearer token from `data-token`, query from `data-discussion`. -/
def readRequest (ds : ScriptDataset) : ReadRequest :=
  { url := "https://api.github.com/graphql"
    method := "POST"
    authHeader := "Bearer " ++ ds.token
    queryBody := queryOfDataset ds }

/-! ### GraphQL syntactic validity

A lexer and a recursive-descent recognizer for the GraphQL fragment the query
uses: an operation `query` with nested selection sets, fields with optional
arguments, and `Int`/`String` argument values (commas are separators). -/

/-- GraphQL tokens. Literal payloads are irrelevant to syntactic validity and
are not carried for `Int` and `String` values. -/
inductive Tok where
  | lbrace
  | rbrace
  | lparen
  | rparen
  | colon
  | comma
  | name (s : String)
  | intLit
  | strLit
deriving DecidableEq

/-- In-progress token of the lexer. -/
inductive Pending where
  | idle
  | nameAcc (cs : List Char)
  | intAcc
  | strAcc
deriving DecidableEq

/-- Lexer state: the pending token, the emitted tokens in reverse order, and
an error flag for characters outside the recognized alphabet. -/
structure LexSt where
  pend : Pending
  toks : List Tok
  err : Bool
deriving DecidableEq

def lbraceC : Char := Char.ofNat 123

def rbraceC : Char := Char.ofNat 125

def isNameChar (c : Char) : Bool := c.isAlpha || c == '_'

def isWsChar (c : Char) : Bool := c == ' ' || c == '\n' || c == '\t' || c == '\r'

/-- Begin a fresh token (or emit a punctuator) at character `c`, with the
already-emitted tokens `toks`. -/
def startTok (c : Char) (toks : List Tok) : LexSt :=
  if c == '"' then ⟨.strAcc, toks, false⟩
  else if c.isDigit then ⟨.intAcc, toks, false⟩
  else if isNameChar c then ⟨.nameAcc [c], toks, false⟩
  else if c == lbraceC then ⟨.idle, .lbrace :: toks, false⟩
  else if c == rbraceC then ⟨.idle, .rbrace :: toks, false⟩
  else if c == '(' then ⟨.idle, .lparen :: toks, false⟩
  else if c == ')' then ⟨.idle, .rparen :: toks, false⟩
  else if c == ':' then ⟨.idle, .colon :: toks, false⟩
  else if c == ',' then ⟨.idle, .comma :: toks, false⟩
  else if isWsChar c then ⟨.idle, toks, false⟩
  else ⟨.idle, toks, true⟩

/-- One lexer step (maximal munch: a pending name or int is extended while its
character class continues, and flushed otherwise). -/
def lexStep (st : LexSt) (c : Char) : LexSt :=
  if st.err then st
  else
    match st.pend with
    | .strAcc => if c == '"' then ⟨.idle, .strLit :: st.toks, false⟩ else ⟨.strAcc, st.toks, false⟩
    | .nameAcc cs =>
      if isNameChar c || c.isDigit then ⟨.nameAcc (c :: cs), st.toks, false⟩
      else startTok c (.name (String.mk cs.reverse) :: st.toks)
    | .intAcc => if c.isDigit then st else startTok c (.intLit :: st.toks)
    | .idle => startTok c st.toks

/-- Flush the final lexer state; `none` on an alphabet error or an
unterminated string literal. -/
def finishLex (st : LexSt) : Option (List Tok) :=
  if st.err then none
  else
    match st.pend with
    | .idle => some st.toks.reverse
    | .nameAcc cs' => some (Tok.name (String.mk cs'.reverse) :: st.toks).reverse
    | .intAcc => some (Tok.intLit :: st.toks).reverse
    | .strAcc => none

/-- Tokenize a character list. -/
def lex (cs : List Char) : Option (List Tok) :=
  finishLex (cs.foldl lexStep ⟨.idle, [], false⟩)

/-- Recognize an argument value: an `Int` or `String` literal. -/
def parseValue : List Tok → Option (List Tok)
  | Tok.intLit :: ts => some ts
  | Tok.strLit :: ts => some ts
  | _ => none

mutual

/-- Recognize a selection set `{ Selection+ }`; returns the remaining tokens. -/
def parseSelSet : Nat → List Tok → Option (List Tok)
  | 0, _ => none
  | fuel + 1, Tok.lbrace :: ts => parseSelLoop fuel ts
  | _ + 1, _ => none

/-- Recognize one or more selections followed by the closing brace. -/
def parseSelLoop : Nat → List Tok → Option (List Tok)
  | 0, _ => none
  | fuel + 1, ts =>
    match parseSel fuel ts with
    | none => none
    | some r =>
      match r with
      | Tok.rbrace :: r' => some r'
      | _ => parseSelLoop fuel r

/-- Recognize a field selection: a name, optional arguments, optional nested
selection set. -/
def parseSel : Nat → List Tok → Option (List Tok)
  | 0, _ => none
  | fuel + 1, Tok.name _ :: ts =>
    match
      (match ts with
       | Tok.lparen :: ts' => parseArgLoop fuel ts'
       | _ => some ts) with
    | none => none
    | some t2 =>
      match t2 with
      | Tok.lbrace :: _ => parseSelSet fuel t2
      | _ => some t2
  | _ + 1, _ => none

/-- Recognize one or more `name : value` arguments, separated by optional
commas, followed by the closing parenthesis. -/
def parseArgLoop : Nat → List Tok → Option (List Tok)
  | 0, _ => none
  | fuel + 1, Tok.name _ :: Tok.colon :: ts =>
    match parseValue ts with
    | none => none
    | some r =>
      match r with
      | Tok.rparen :: r' => some r'
      | Tok.comma :: r' => parseArgLoop fuel r'
      | _ => parseArgLoop fuel r
  | _ + 1, _ => none

end

/-- A token list is a valid document of the fragment when it is the operation
keyword `query` followed by a selection set consuming everything. -/
def checkDoc (ts : List Tok) : Bool :=
  match ts with
  | Tok.name q :: rest => q == "query" && (parseSelSet (4 * ts.length + 4) rest == some [])
  | _ => false

/-- Syntactic validity of a GraphQL document string. -/
def validGraphQL (s : String) : Bool :=
  match lex s.data with
  | some ts => checkDoc ts
  | none => false

/-! ### Counting substring occurrences -/

/-- Number of positions of `s` (the final empty suffix included) at which
`pat` begins as a contiguous substring. -/
def countOccur (pat : List Char) : List Char → Nat
  | [] => if pat.isPrefixOf ([] : List Char) then 1 else 0
  | c :: rest => (if pat.isPrefixOf (c :: rest) then 1 else 0) + countOccur pat rest

theorem isPrefixOf_iff {p l : List Char} : p.isPrefixOf l = true ↔ p <+: l := by
  induction p generalizing l with
  | nil => simp [List.isPrefixOf]
  | cons a p' ih =>
    cases l with
    | nil => simp [List.isPrefixOf]
    | cons b l' =>
      simp [List.isPrefixOf, List.cons_prefix_cons, ih, Bool.and_eq_true, beq_iff_eq]

theorem countOccur_pos_of_prefixed {pat l : List Char} (h : pat.isPrefixOf l = true) :
    1 ≤ countOccur pat l := by
  cases l with
  | nil => simp [countOccur, h]
  | cons c rest => simp [countOccur, h]

/-- An explicit occurrence gives a positive count. -/
theorem countOccur_pos (pat : List Char) : ∀ (u v : List Char),
    1 ≤ countOccur pat (u ++ (pat ++ v)) := by
  intro u
  induction u with
  | nil =>
    intro v
    exact countOccur_pos_of_prefixed (isPrefixOf_iff.2 (List.prefix_append pat v))
  | cons c u' ih =>
    intro v
    calc 1 ≤ countOccur pat (u' ++ (pat ++ v)) := ih v
    _ ≤ (if pat.isPrefixOf (c :: (u' ++ (pat ++ v))) then 1 else 0) +
        countOccur pat (u' ++ (pat ++ v)) := Nat.le_add_left _ _
    _ = countOccur pat ((c :: u') ++ (pat ++ v)) := rfl

/-- Extending the pattern on the right can only lose occurrences. -/
theorem countOccur_extend_le (p q : List Char) : ∀ s, countOccur (p ++ q) s ≤ countOccur p s := by
  intro s
  induction s with
  | nil =>
    by_cases h : (p ++ q).isPrefixOf ([] : List Char)
    · have hp : p.isPrefixOf ([] : List Char) = true :=
        isPrefixOf_iff.2 ((List.prefix_append p q).trans (isPrefixOf_iff.1 h))
      simp [countOccur, h, hp]
    · simp only [countOccur, if_neg h]
      exact Nat.zero_le _
  | cons c rest ih =>
    by_cases h : (p ++ q).isPrefixOf (c :: rest)
    · have hp : p.isPrefixOf (c :: rest) = true :=
        isPrefixOf_iff.2 ((List.prefix_append p q).trans (isPrefixOf_iff.1 h))
      simp only [countOccur, h, hp, if_pos]
      omega
    · simp only [countOccur, if_neg h]
      calc (if p.isPrefixOf (c :: rest) then 1 else 0) * 0 + countOccur (p ++ q) rest
          = countOccur (p ++ q) rest := by omega
      _ ≤ countOccur p rest := ih
      _ ≤ (if p.isPrefixOf (c :: rest) then 1 else 0) + countOccur p rest := Nat.le_add_left _ _

/-- A pattern of non-digit characters begins at the same positions whether an
all-digit segment in the middle of the text is one digit run or another. -/
theorem prefixed_digit_mid {mid mid' b : List Char}
    (hm : mid ≠ []) (hmd : ∀ c ∈ mid, c.isDigit = true)
    (hm' : mid' ≠ []) (hmd' : ∀ c ∈ mid', c.isDigit = true) :
    ∀ (u : List Char) (p : List Char), (∀ c ∈ p, c.isDigit = false) →
      p.isPrefixOf (u ++ (mid ++ b)) = p.isPrefixOf (u ++ (mid' ++ b)) := by
  intro u
  induction u with
  | nil =>
    intro p hp
    cases p with
    | nil => simp [List.isPrefixOf]
    | cons p0 pt =>
      cases mid with
      | nil => exact absurd rfl hm
      | cons m0 mt =>
        cases mid' with
        | nil => exact absurd rfl hm'
        | cons m0' mt' =>
          have h0 : p0.isDigit = false := hp p0 (by simp)
          have hne : (p0 == m0) = false := by
            by_cases he : p0 = m0
            · subst he
              rw [hmd p0 (by simp)] at h0
              exact absurd h0 (by simp)
            · exact beq_false_of_ne he
          have hne' : (p0 == m0') = false := by
            by_cases he : p0 = m0'
            · subst he
              rw [hmd' p0 (by simp)] at h0
              exact absurd h0 (by simp)
            · exact beq_false_of_ne he
          simp [List.isPrefixOf, hne, hne']
  | cons c u' ih =>
    intro p hp
    cases p with
    | nil => simp [List.isPrefixOf]
    | cons p0 pt =>
      have hpt : ∀ x ∈ pt, x.isDigit = false := fun x hx => hp x (by simp [hx])
      simp only [List.cons_append, List.isPrefixOf, List.append_eq, ih pt hpt]

/-- The number of occurrences of a non-digit pattern does not depend on which
nonempty digit run fills an all-digit segment of the text. -/
theorem countOccur_digit_mid {pat mid mid' b : List Char}
    (hpne : pat ≠ [])
    (hpat : ∀ c ∈ pat, c.isDigit = false)
    (hm : mid ≠ []) (hmd : ∀ c ∈ mid, c.isDigit = true)
    (hm' : mid' ≠ []) (hmd' : ∀ c ∈ mid', c.isDigit = true) :
    ∀ (a : List Char), countOccur pat (a ++ (mid ++ b)) = countOccur pat (a ++ (mid' ++ b)) := by
  have skip : ∀ (md : List Char), (∀ c ∈ md, c.isDigit = true) →
      countOccur pat (md ++ b) = countOccur pat b := by
    intro md
    induction md with
    | nil => intro _; rfl
    | cons d mt ihm =>
      intro hdig
      have hfalse : pat.isPrefixOf (d :: (mt ++ b)) = false := by
        cases pat with
        | nil => exact absurd rfl hpne
        | cons p0 pt =>
          have h0 : p0.isDigit = false := hpat p0 (by simp)
          have hne : (p0 == d) = false := by
            by_cases he : p0 = d
            · subst he
              rw [hdig p0 (by simp)] at h0
              exact absurd h0 (by simp)
            · exact beq_false_of_ne he
          simp [List.isPrefixOf, hne]
      have htail : countOccur pat (mt ++ b) = countOccur pat b :=
        ihm (fun c hc => hdig c (List.mem_cons_of_mem d hc))
      simp only [List.cons_append, countOccur, List.append_eq]
      simp [hfalse, htail]
  intro a
  induction a with
  | nil =>
    simp only [List.nil_append]
    rw [skip mid hmd, skip mid' hmd']
  | cons c a' iha =>
    have hpre := prefixed_digit_mid (b := b) hm hmd hm' hmd' (c :: a') pat hpat
    simp only [List.cons_append] at hpre
    simp only [List.cons_append, countOccur, List.append_eq]
    rw [iha]
    simp only [hpre]

/-! ### Lexing a query: the digit run lexes to one `Int` token -/

theorem digit_ne_quote {c : Char} (h : c.isDigit = true) : (c == '"') = false := by
  by_cases he : c = '"'
  · subst he
    exact absurd h (by decide)
  · exact beq_false_of_ne he

theorem foldl_lexStep_digit_int (ts : List Tok) :
    ∀ (ds : List Char), (∀ c ∈ ds, c.isDigit = true) →
      List.foldl lexStep ⟨Pending.intAcc, ts, false⟩ ds = ⟨Pending.intAcc, ts, false⟩ := by
  intro ds
  induction ds with
  | nil => intro _; rfl
  | cons d dt ih =>
    intro hd
    have hdd : d.isDigit = true := hd d (by simp)
    have hstep : lexStep ⟨Pending.intAcc, ts, false⟩ d = ⟨Pending.intAcc, ts, false⟩ := by
      simp [lexStep, hdd]
    rw [List.foldl_cons, hstep]
    exact ih (fun c hc => hd c (List.mem_cons_of_mem d hc))

theorem foldl_lexStep_digits (ts : List Tok) (ds : List Char) (hne : ds ≠ [])
    (hd : ∀ c ∈ ds, c.isDigit = true) :
    List.foldl lexStep ⟨Pending.idle, ts, false⟩ ds = ⟨Pending.intAcc, ts, false⟩ := by
  cases ds with
  | nil => exact absurd rfl hne
  | cons d dt =>
    have hdd : d.isDigit = true := hd d (by simp)
    have hstep : lexStep ⟨Pending.idle, ts, false⟩ d = ⟨Pending.intAcc, ts, false⟩ := by
      simp [lexStep, startTok, digit_ne_quote hdd, hdd]
    rw [List.foldl_cons, hstep]
    exact foldl_lexStep_digit_int ts dt (fun c hc => hd c (List.mem_cons_of_mem d hc))

/-- From an idle, error-free lexer state, two nonempty digit runs followed by
the same remaining text lex to the same final state. -/
theorem foldl_lexStep_swap_mid (st : LexSt) (hp : st.pend = Pending.idle)
    (he : st.err = false) (mid mid' rest : List Char)
    (hm : mid ≠ []) (hmd : ∀ c ∈ mid, c.isDigit = true)
    (hm' : mid' ≠ []) (hmd' : ∀ c ∈ mid', c.isDigit = true) :
    List.foldl lexStep st (mid ++ rest) = List.foldl lexStep st (mid' ++ rest) := by
  obtain ⟨p, ts, e⟩ := st
  simp only at hp he
  subst hp
  subst he
  rw [List.foldl_append, List.foldl_append,
    foldl_lexStep_digits ts mid hm hmd, foldl_lexStep_digits ts mid' hm' hmd']

theorem query_data (m : Nat) :
    (query m).data = queryPre.data ++ (natDigits m ++ queryPost.data) := by
  show (queryPre ++ (natToString m ++ queryPost)).data = _
  rw [String.data_append, String.data_append]
  rfl

set_option maxHeartbeats 1000000 in
/-- Tokenizing the query does not depend on the interpolated number. -/
theorem lex_query_eq (n : Nat) : lex (query n).data = lex (query 1).data := by
  have hp : (List.foldl lexStep ⟨Pending.idle, [], false⟩ queryPre.data).pend
      = Pending.idle := rfl
  have he : (List.foldl lexStep ⟨Pending.idle, [], false⟩ queryPre.data).err = false := rfl
  have hfold : ∀ m : Nat,
      List.foldl lexStep ⟨Pending.idle, [], false⟩ (query m).data =
        List.foldl lexStep (List.foldl lexStep ⟨Pending.idle, [], false⟩ queryPre.data)
          (natDigits m ++ queryPost.data) := by
    intro m
    rw [query_data m]
    exact List.foldl_append _ _ _ _
  unfold lex
  rw [hfold n, hfold 1,
    foldl_lexStep_swap_mid _ hp he (natDigits n) (natDigits 1) queryPost.data
      (natDigits_ne_nil n) (natDigits_all_digit n)
      (natDigits_ne_nil 1) (natDigits_all_digit 1)]

/-! ### Concrete evaluation of the query for `n = 1`, in chunks small enough
for kernel reduction -/

/-- The full text of `query 1` as one literal. -/
def queryOneLit : String := "\nquery \x7b\n  repository(owner: \"SwiftFoxx\", name: \"swiftblog-feedback\") \x7b\n    discussion(number: 1) \x7b\n      id\n      title\n      body\n      comments(first: 50) \x7b\n        nodes \x7b\n          id\n          body\n          createdAt\n          author \x7b\n            login\n            avatarUrl\n          \x7d\n          replies(first: 50) \x7b\n            nodes \x7b\n              id\n              body\n              author \x7b\n                login\n                avatarUrl\n              \x7d\n            \x7d\n          \x7d\n        \x7d\n      \x7d\n    \x7d\n  \x7d\n\x7d\n"

/-- First half of `queryOneLit`. -/
def qOneA : String := "\nquery \x7b\n  repository(owner: \"SwiftFoxx\", name: \"swiftblog-feedback\") \x7b\n    discussion(number: 1) \x7b\n      id\n      title\n      body\n      comments(first: 50) \x7b\n        nodes \x7b\n          id\n          body\n          createdAt\n          author \x7b\n            login\n "

/-- Second half of `queryOneLit`. -/
def qOneB : String := "           avatarUrl\n          \x7d\n          replies(first: 50) \x7b\n            nodes \x7b\n              id\n              body\n              author \x7b\n                login\n                avatarUrl\n              \x7d\n            \x7d\n          \x7d\n        \x7d\n      \x7d\n    \x7d\n  \x7d\n\x7d\n"

/-- Text of `queryPost` without its leading closing parenthesis. -/
def queryPostTail : String := " \x7b\n      id\n      title\n      body\n      comments(first: 50) \x7b\n        nodes \x7b\n          id\n          body\n          createdAt\n          author \x7b\n            login\n            avatarUrl\n          \x7d\n          replies(first: 50) \x7b\n            nodes \x7b\n              id\n              body\n              author \x7b\n                login\n                avatarUrl\n              \x7d\n            \x7d\n          \x7d\n        \x7d\n      \x7d\n    \x7d\n  \x7d\n\x7d\n"

/-- Lexer state after the first half of the query text. -/
def lexStA : LexSt :=
  ⟨Pending.idle,
    [.name "login",
    .lbrace,
    .name "author",
    .name "createdAt",
    .name "body",
    .name "id",
    .lbrace,
    .name "nodes",
    .lbrace,
    .rparen,
    .intLit,
    .colon,
    .name "first",
    .lparen,
    .name "comments",
    .name "body",
    .name "title",
    .name "id",
    .lbrace,
    .rparen,
    .intLit,
    .colon,
    .name "number",
    .lparen,
    .name "discussion",
    .lbrace,
    .rparen,
    .strLit,
    .colon,
    .name "name",
    .comma,
    .strLit,
    .colon,
    .name "owner",
    .lparen,
    .name "repository",
    .lbrace,
    .name "query"],
    false⟩

/-- The token list of the query document. -/
def queryToks : List Tok :=
  [.name "query",
  .lbrace,
  .name "repository",
  .lparen,
  .name "owner",
  .colon,
  .strLit,
  .comma,
  .name "name",
  .colon,
  .strLit,
  .rparen,
  .lbrace,
  .name "discussion",
  .lparen,
  .name "number",
  .colon,
  .intLit,
  .rparen,
  .lbrace,
  .name "id",
  .name "title",
  .name "body",
  .name "comments",
  .lparen,
  .name "first",
  .colon,
  .intLit,
  .rparen,
  .lbrace,
  .name "nodes",
  .lbrace,
  .name "id",
  .name "body",
  .name "createdAt",
  .name "author",
  .lbrace,
  .name "login",
  .name "avatarUrl",
  .rbrace,
  .name "replies",
  .lparen,
  .name "first",
  .colon,
  .intLit,
  .rparen,
  .lbrace,
  .name "nodes",
  .lbrace,
  .name "id",
  .name "body",
  .name "author",
  .lbrace,
  .name "login",
  .name "avatarUrl",
  .rbrace,
  .rbrace,
  .rbrace,
  .rbrace,
  .rbrace,
  .rbrace,
  .rbrace,
  .rbrace]

theorem marker_ne_nil : numberMarker.data ≠ [] := by decide

theorem marker_no_digit : ∀ c ∈ numberMarker.data, c.isDigit = false := by decide

theorem query_one_lit : (query 1).data = queryOneLit.data := rfl

theorem queryOneLit_split : queryOneLit.data = qOneA.data ++ qOneB.data := rfl

theorem lex_qOneA : List.foldl lexStep ⟨Pending.idle, [], false⟩ qOneA.data = lexStA := rfl

theorem lex_query_one : lex (query 1).data = some queryToks := by
  rw [query_one_lit]
  unfold lex
  rw [queryOneLit_split, List.foldl_append, lex_qOneA]
  rfl

theorem checkDoc_queryToks : checkDoc queryToks = true := rfl

theorem valid_query_one : validGraphQL (query 1) = true := by
  unfold validGraphQL
  rw [lex_query_one]
  exact checkDoc_queryToks

theorem valid_query (n : Nat) : validGraphQL (query n) = true := by
  unfold validGraphQL
  rw [lex_query_eq n, lex_query_one]
  exact checkDoc_queryToks

theorem countOccur_marker_query_one : countOccur numberMarker.data (query 1).data = 1 := by
  rw [query_one_lit]
  rfl

theorem countOccur_marker_query (n : Nat) :
    countOccur numberMarker.data (query n).data = 1 := by
  have hmid := @countOccur_digit_mid numberMarker.data (natDigits n) (natDigits 1)
    queryPost.data marker_ne_nil marker_no_digit
    (natDigits_ne_nil n) (natDigits_all_digit n)
    (natDigits_ne_nil 1) (natDigits_all_digit 1) queryPre.data
  rw [query_data n, hmid, ← query_data 1]
  exact countOccur_marker_query_one

/-- The discussion-number position: the marker, the decimal numeral and the
closing parenthesis. -/
def patPos (n : Nat) : List Char := numberMarker.data ++ (natDigits n ++ [')'])

theorem queryPost_cons : queryPost.data = ')' :: queryPostTail.data := rfl

theorem countOccur_patPos (n : Nat) : countOccur (patPos n) (query n).data = 1 := by
  apply Nat.le_antisymm
  · calc countOccur (patPos n) (query n).data
        ≤ countOccur numberMarker.data (query n).data :=
          countOccur_extend_le numberMarker.data (natDigits n ++ [')']) (query n).data
    _ = 1 := countOccur_marker_query n
  · have hsplit : (query n).data = queryPreA.data ++ (patPos n ++ queryPostTail.data) := by
      rw [query_data n]
      have hpre : queryPre.data = queryPreA.data ++ numberMarker.data := rfl
      rw [hpre, queryPost_cons]
      simp [patPos, List.append_assoc]
    rw [hsplit]
    exact countOccur_pos (patPos n) queryPreA.data queryPostTail.data

/-! ### The data model of a fetched discussion (spec section 3)

Timestamps are the parsed millisecond value of the ISO string, since the only
consumer is the relative-time formatter. -/

structure Author where
  login : String
  avatarUrl : String

structure Reply where
  id : String
  body : String
  author : Author

structure Comment where
  id : String
  body : String
  createdAt : Int
  author : Author
  replies : List Reply

structure Discussion where
  id : String
  title : String
  body : String
  comments : List Comment

/-! ### The thread renderer (source lines 194-247)

The DOM subtree the renderer builds: elements with tag, attributes and
children. The comment markup is the parse of the `innerHTML` template of
lines 213-222 (the unclosed inner `span` of line 217 parses as an empty
nested span), with the reply nodes appended into the `replies` container. -/

inductive DomNode where
  | el (tag : String) (attrs : List (String × String)) (children : List DomNode)
  | text (s : String)

/-- The placeholder built for an empty thread (source lines 200-207). -/
def placeholderNode : DomNode :=
  .el "article" [("class", "comment")] [.el "p" [] [.text "No comments yet"]]

/-- One reply node (source lines 227-238). -/
def replyNode (r : Reply) : DomNode :=
  .el "div" [("class", "reply")]
    [.el "div" [("class", "author-identity")]
      [.el "img" [("class", "avatar-img"), ("src", r.author.avatarUrl), ("alt", "")] [],
       .el "strong" [] [.text r.author.login]],
     .el "p" [] [.text r.body]]

/-- One top-level comment node (source lines 210-241): header with avatar,
login and relative timestamp, the body paragraph, and the replies container
holding one reply node per reply in server order. -/
def commentNode (now : Int) (c : Comment) : DomNode :=
  .el "article" [("class", "comment")]
    [.el "div" [("class", "comment-container")]
      [.el "div" [("class", "author-identity")]
        [.el "img" [("class", "avatar-img"), ("src", c.author.avatarUrl), ("alt", "")] [],
         .el "div" [("class", "comment-name")]
           [.text (c.author.login ++ " "),
            .el "span" [("class", "comment-ts")]
              [.text (timeAgo c.createdAt now), .el "span" [] []]]],
       .el "p" [] [.text c.body],
       .el "div" [("class", "replies")] (c.replies.map replyNode)]]

/-- The section the renderer assembles (source lines 197-243): the placeholder
when the comment list is empty, one comment node per comment otherwise. -/
def renderCommentsSection (now : Int) (d : Discussion) : DomNode :=
  .el "section" [("id", "comments")]
    (if d.comments.length = 0 then [placeholderNode]
     else d.comments.map (commentNode now))

/-- Depth-first search for the first `div` with class `replies`, returning its
children; the fuel bounds the traversal depth. -/
def findReplies : Nat → List DomNode → Option (List DomNode)
  | 0, _ => none
  | _ + 1, [] => none
  | fuel + 1, DomNode.text _ :: rest => findReplies fuel rest
  | fuel + 1, DomNode.el tag attrs kids :: rest =>
    if tag == "div" && attrs.any (fun p => p.1 == "class" && p.2 == "replies") then
      some kids
    else
      (findReplies fuel kids).orElse (fun _ => findReplies fuel rest)

/-- The replies container of a rendered comment node holds exactly the reply
nodes of the comment, in server order. -/
theorem findReplies_commentNode (now : Int) (c : Comment) :
    findReplies 32 [commentNode now c] = some (c.replies.map replyNode) := rfl

/-! ### The read pipeline as a timed event trace (source lines 167-192)

The fixed 8000 ms deadline races the fetch. A settlement at or after the
deadline is preempted: the abort fires first and the chain rejects with the
`AbortError` at the deadline; a late settlement of the aborted request is
ignored. Only the second `.then` clears the timer; when it is never cleared,
the timer fires at the deadline and calls `controller.abort()`. -/

/-- Terminal outcomes of the read chain: the resolution of the final promise
of the `.then`/`.catch` pipeline. -/
inductive Outcome where
  | success
  | timeout
  | failure
deriving DecidableEq

/-- Observable events of the pipeline, tagged with a millisecond time in the
trace. -/
inductive Event where
  | timerSet (delayMs : Nat)
  | fetchStart (url : String)
  | abortCalled
  | timerCleared
  | consoleLogDiscussion
  | consoleWarn (msg : String)
  | consoleError (msg : String)
  | sectionMounted
  | composerMounted
  | outcome (o : Outcome)
  | postSent (url : String) (discussionId : String) (body : String)
  | consoleLogSend
  | reload
  | uncaughtError
deriving DecidableEq

/-- One HTTP response: its status code and the result of `res.json()`. -/
structure Response where
  status : Nat
  jsonBody : Except JsErr JsVal

/-- How the network behaves for one request: settle (fulfil or reject) at a
time, or never settle. -/
inductive FetchBehavior where
  | settles (t : Nat) (result : Except JsErr Response)
  | never

/-- The deadline fixed by the design for the read path (source line 168). -/
def readDeadline : Nat := 8000

/-- The `.catch` handler (source lines 186-192): an `AbortError` is reported
as a timeout warning, anything else as a load failure. -/
def catchBranch (t : Nat) (e : JsErr) : List (Nat × Event) :=
  if errName e = "AbortError" then
    [(t, .consoleWarn "Comments request timed out"), (t, .outcome .timeout)]
  else
    [(t, .consoleError "Failed to load comments"), (t, .outcome .failure)]

/-- The DOM mutations of `renderComments` (source lines 194-247): nothing for
a falsy discussion; otherwise the section is mounted and then the composer. -/
def renderEvents (v : JsVal) : List Event :=
  if truthy v then [.sectionMounted, .composerMounted] else []

/-- The second `.then` (source lines 180-185): clear the timer, extract the
discussion (which may throw, sending the rejection to `.catch`), log it and
render. -/
def successThen (t : Nat) (data : JsVal) : List (Nat × Event) :=
  (t, .timerCleared) ::
    match extractDiscussion data with
    | .error e => catchBranch t e
    | .ok v =>
      (t, .consoleLogDiscussion) ::
        ((renderEvents v).map (fun e => (t, e)) ++ [(t, .outcome .success)])

/-- The timed trace of the read pipeline for one network behavior. -/
def runRead (b : FetchBehavior) : List (Nat × Event) :=
  (0, .timerSet readDeadline) :: (0, .fetchStart "https://api.github.com/graphql") ::
    match b with
    | .never => (readDeadline, .abortCalled) :: catchBranch readDeadline .abortError
    | .settles t r =>
      if readDeadline ≤ t then
        (readDeadline, .abortCalled) :: catchBranch readDeadline .abortError
      else
        match r with
        | .error e => catchBranch t e ++ [(readDeadline, .abortCalled)]
        | .ok resp =>
          match resp.jsonBody with
          | .error e => catchBranch t e ++ [(readDeadline, .abortCalled)]
          | .ok data => successThen t data

/-- The untimed events of a trace. -/
def eventsOf (tr : List (Nat × Event)) : List Event := tr.map Prod.snd

/-- The terminal outcomes of a trace, with their times. -/
def outcomesOf (tr : List (Nat × Event)) : List (Nat × Outcome) :=
  tr.filterMap fun p =>
    match p.2 with
    | .outcome o => some (p.1, o)
    | _ => none

/-! ### The composer submit handler (source lines 251-281)

The handler awaits the proxy POST with only a fulfilled-continuation attached;
a rejection therefore escapes the async handler as an unhandled rejection.
The reload call of the draft is commented out (source line 277). -/

/-- The proxy base URL (source line 249). -/
def apiBase : String := "https://comments.swiftfoxx.workers.dev"

/-- How the proxy behaves for one submission. -/
inductive WriteBehavior where
  | resolves (resp : Response)
  | rejects (e : JsErr)

/-- The event trace of one submit: always exactly one POST of
`{discussionId, body}` to the proxy; a success logs, a rejection escapes. -/
def runSubmit (b : WriteBehavior) (discussionId body : String) : List Event :=
  .postSent (apiBase ++ "/api/comment") discussionId body ::
    match b with
    | .resolves _ => [.consoleLogSend]
    | .rejects _ => [.uncaughtError]

/-- POST events of a submit trace. -/
def isPost : Event → Bool
  | .postSent _ _ _ => true
  | _ => false

/-! ### Claim theorems -/

/-- C1: for a read request that never resolves, the 8000 ms pipeline produces
exactly one terminal outcome, a Timeout, at the deadline; it never also
produces a Success or Failure outcome, the timeout is distinguishable from
both, and the abort branch logs the timeout warning rather than the failure
message. -/
theorem c1_never_resolving_times_out :
    outcomesOf (runRead .never) = [(readDeadline, Outcome.timeout)] ∧
    Outcome.timeout ≠ Outcome.success ∧
    Outcome.timeout ≠ Outcome.failure ∧
    Event.consoleWarn "Comments request timed out" ∈ eventsOf (runRead .never) ∧
    Event.consoleError "Failed to load comments" ∉ eventsOf (runRead .never) ∧
    Event.sectionMounted ∉ eventsOf (runRead .never) := by
  refine ⟨rfl, by decide, by decide, by decide, by decide, by decide⟩

/-- C2 counterexample: a network failure at 100 ms is a resolution of the read
fetch (it produces the Failure outcome), yet the trace never clears the
cancellation timer, so the timer is not cleared at every resolution. -/
theorem c2_counterexample :
    outcomesOf (runRead (.settles 100 (.error (.networkError "refused")))) =
      [(100, Outcome.failure)] ∧
    Event.timerCleared ∉
      eventsOf (runRead (.settles 100 (.error (.networkError "refused")))) := by
  refine ⟨rfl, by decide⟩

/-- C2 amended: over every network behavior — fulfilment, rejection,
settlement at or after the deadline, or never settling — the timer is cleared
exactly when the fetch fulfils before the deadline with a body whose JSON
parses; on every other run, the timeout runs included, it is never cleared and
the timer fires the abort at the deadline. -/
theorem c2_timer_cleared_iff :
    ∀ b : FetchBehavior,
      ((Event.timerCleared ∈ eventsOf (runRead b)) ↔
        ∃ t resp data, b = .settles t (.ok resp) ∧ t < readDeadline ∧
          resp.jsonBody = .ok data) ∧
      (Event.timerCleared ∉ eventsOf (runRead b) →
        (readDeadline, Event.abortCalled) ∈ runRead b) := by
  intro b
  cases b with
  | never =>
    refine ⟨⟨?_, ?_⟩, ?_⟩
    · intro hmem
      exfalso
      simp [runRead, eventsOf, catchBranch, errName] at hmem
    · rintro ⟨t, resp, data, hb, _, _⟩
      cases hb
    · intro _
      simp [runRead, catchBranch, errName]
  | settles t r =>
    by_cases hle : readDeadline ≤ t
    · refine ⟨⟨?_, ?_⟩, ?_⟩
      · intro hmem
        exfalso
        simp [runRead, hle, eventsOf, catchBranch, errName] at hmem
      · rintro ⟨t', resp, data, hb, hlt, _⟩
        simp only [FetchBehavior.settles.injEq] at hb
        omega
      · intro _
        simp [runRead, hle, catchBranch, errName]
    · have hnle : ¬ readDeadline ≤ t := hle
      cases r with
      | error e =>
        refine ⟨⟨?_, ?_⟩, ?_⟩
        · intro hmem
          exfalso
          simp only [runRead, if_neg hnle, eventsOf, catchBranch] at hmem
          by_cases hab : errName e = "AbortError" <;>
            simp [hab] at hmem
        · rintro ⟨t', resp, data, hb, _, _⟩
          simp only [FetchBehavior.settles.injEq] at hb
          exact absurd hb.2 (by simp)
        · intro _
          simp only [runRead, if_neg hnle, catchBranch]
          by_cases hab : errName e = "AbortError" <;> simp [hab]
      | ok resp =>
        cases hj : resp.jsonBody with
        | error e =>
          refine ⟨⟨?_, ?_⟩, ?_⟩
          · intro hmem
            exfalso
            simp only [runRead, if_neg hnle, hj, eventsOf, catchBranch] at hmem
            by_cases hab : errName e = "AbortError" <;>
              simp [hab] at hmem
          · rintro ⟨t', resp', data, hb, _, hdata⟩
            simp only [FetchBehavior.settles.injEq, Except.ok.injEq] at hb
            rw [← hb.2] at hdata
            rw [hj] at hdata
            cases hdata
          · intro _
            simp only [runRead, if_neg hnle, hj, catchBranch]
            by_cases hab : errName e = "AbortError" <;> simp [hab]
        | ok data =>
          refine ⟨⟨?_, ?_⟩, ?_⟩
          · intro _
            exact ⟨t, resp, data, rfl, by omega, hj⟩
          · intro _
            simp [runRead, if_neg hnle, hj, eventsOf, successThen]
          · intro hnot
            exfalso
            exact hnot (by simp [runRead, if_neg hnle, hj, eventsOf, successThen])

/-- C2 witness: a concrete parse-success resolution before the deadline does
clear the timer, and on the concrete never-settling run the uncleared timer
fires the abort at the deadline. -/
theorem c2_witness :
    Event.timerCleared ∈
      eventsOf (runRead (.settles 100 (.ok ⟨200, .ok JsVal.jsNull⟩))) ∧
    (readDeadline, Event.abortCalled) ∈ runRead .never :=
  ⟨(c2_timer_cleared_iff (.settles 100 (.ok ⟨200, .ok JsVal.jsNull⟩))).1.mpr
      ⟨100, ⟨200, .ok JsVal.jsNull⟩, JsVal.jsNull, rfl, by decide, rfl⟩,
    (c2_timer_cleared_iff .never).2 (by decide)⟩

/-- C3 counterexample: an envelope that lacks the `data.repository.discussion`
path because `data` itself is absent (the empty object) is not treated as
"no discussion": the property chain throws a `TypeError`, the `.catch` branch
logs the load failure and the run ends in the Failure outcome. Nothing is
mounted, but the handling is the hard-error branch. -/
theorem c3_counterexample :
    extractDiscussion (JsVal.obj []) = .error .typeError ∧
    Event.consoleError "Failed to load comments" ∈
      eventsOf (runRead (.settles 100 (.ok ⟨200, .ok (JsVal.obj [])⟩))) ∧
    outcomesOf (runRead (.settles 100 (.ok ⟨200, .ok (JsVal.obj [])⟩))) =
      [(100, Outcome.failure)] ∧
    Event.consoleLogDiscussion ∉
      eventsOf (runRead (.settles 100 (.ok ⟨200, .ok (JsVal.obj [])⟩))) := by
  refine ⟨rfl, by decide, rfl, by decide⟩

/-- C3 amended: an envelope whose `discussion` is reached but falsy (absent
leaf or `null`) is treated as no discussion: the chain succeeds, logs no
error, and the renderer mounts neither the comments section nor the composer.
An envelope whose `data` or `data.repository` is missing instead throws a
`TypeError` that is caught and logged as a load failure; in that case too,
nothing is mounted. -/
theorem c3_absent_discussion :
    ∀ (t status : Nat) (data : JsVal), t < readDeadline →
      (∀ v, extractDiscussion data = .ok v → truthy v = false →
        eventsOf (runRead (.settles t (.ok ⟨status, .ok data⟩))) =
          [.timerSet readDeadline, .fetchStart "https://api.github.com/graphql",
           .timerCleared, .consoleLogDiscussion, .outcome .success] ∧
        Event.sectionMounted ∉
          eventsOf (runRead (.settles t (.ok ⟨status, .ok data⟩))) ∧
        Event.composerMounted ∉
          eventsOf (runRead (.settles t (.ok ⟨status, .ok data⟩))) ∧
        Event.consoleError "Failed to load comments" ∉
          eventsOf (runRead (.settles t (.ok ⟨status, .ok data⟩)))) ∧
      (∀ e, extractDiscussion data = .error e →
        Event.consoleError "Failed to load comments" ∈
          eventsOf (runRead (.settles t (.ok ⟨status, .ok data⟩))) ∧
        outcomesOf (runRead (.settles t (.ok ⟨status, .ok data⟩))) =
          [(t, Outcome.failure)] ∧
        Event.sectionMounted ∉
          eventsOf (runRead (.settles t (.ok ⟨status, .ok data⟩))) ∧
        Event.composerMounted ∉
          eventsOf (runRead (.settles t (.ok ⟨status, .ok data⟩)))) := by
  intro t status data ht
  have hnle : ¬ readDeadline ≤ t := by omega
  constructor
  · intro v hv htruthy
    have htr : eventsOf (runRead (.settles t (.ok ⟨status, .ok data⟩))) =
        [.timerSet readDeadline, .fetchStart "https://api.github.com/graphql",
         .timerCleared, .consoleLogDiscussion, .outcome .success] := by
      simp [runRead, if_neg hnle, eventsOf, successThen, hv, renderEvents, htruthy]
    refine ⟨htr, ?_, ?_, ?_⟩ <;> simp [htr]
  · intro e he
    have hename : errName e = "TypeError" := extract_error_name he
    have hab : ¬ errName e = "AbortError" := by rw [hename]; decide
    refine ⟨?_, ?_, ?_, ?_⟩ <;>
      simp [runRead, if_neg hnle, eventsOf, outcomesOf, successThen, he,
        catchBranch, hab]

/-- C3 witness: the amended theorem at a concrete null discussion and at a
concrete envelope with a missing `data` field. -/
theorem c3_witness :
    Event.sectionMounted ∉
      eventsOf (runRead (.settles 100 (.ok ⟨200,
        .ok (JsVal.obj [("data", JsVal.obj [("repository",
          JsVal.obj [("discussion", JsVal.jsNull)])])])⟩))) ∧
    Event.consoleError "Failed to load comments" ∈
      eventsOf (runRead (.settles 100 (.ok ⟨200, .ok (JsVal.obj [])⟩))) := by
  constructor
  · exact ((c3_absent_discussion 100 200
      (JsVal.obj [("data", JsVal.obj [("repository",
        JsVal.obj [("discussion", JsVal.jsNull)])])]) (by decide)).1
      JsVal.jsNull rfl rfl).2.1
  · exact ((c3_absent_discussion 100 200 (JsVal.obj []) (by decide)).2
      JsErr.typeError rfl).1

/-- C4 counterexample: a transport failure on the write channel is not caught
anywhere in the submit handler — the awaited rejection escapes the handler as
an unhandled rejection, so not every error is contained in the pipeline. -/
theorem c4_counterexample :
    Event.uncaughtError ∈
      runSubmit (.rejects (.networkError "refused")) "D_kwDOdisc" "hello" := by
  decide

/-- C4 amended: every read-channel error condition is caught inside the read
chain (no unhandled rejection ever appears in a read trace) and every
non-success read outcome is logged; on the write channel a fulfilled POST is
contained, but a rejected POST escapes the submit handler as an unhandled
rejection. -/
theorem c4_error_containment :
    (∀ b, Event.uncaughtError ∉ eventsOf (runRead b)) ∧
    (∀ b t o, (t, o) ∈ outcomesOf (runRead b) → o ≠ Outcome.success →
      Event.consoleWarn "Comments request timed out" ∈ eventsOf (runRead b) ∨
      Event.consoleError "Failed to load comments" ∈ eventsOf (runRead b)) ∧
    (∀ resp did s, Event.uncaughtError ∉ runSubmit (.resolves resp) did s) ∧
    (∀ e did s, Event.uncaughtError ∈ runSubmit (.rejects e) did s) := by
  refine ⟨?_, ?_, ?_, ?_⟩
  · intro b
    cases b with
    | never => simp [runRead, eventsOf, catchBranch, errName]
    | settles t r =>
      by_cases hle : readDeadline ≤ t
      · simp [runRead, hle, eventsOf, catchBranch, errName]
      · cases r with
        | error e =>
          by_cases hab : errName e = "AbortError" <;>
            simp [runRead, hle, eventsOf, catchBranch, hab]
        | ok resp =>
          cases hj : resp.jsonBody with
          | error e =>
            by_cases hab : errName e = "AbortError" <;>
              simp [runRead, hle, hj, eventsOf, catchBranch, hab]
          | ok data =>
            cases hx : extractDiscussion data with
            | error e =>
              by_cases hab : errName e = "AbortError" <;>
                simp [runRead, hle, hj, hx, eventsOf, successThen, catchBranch, hab]
            | ok v =>
              by_cases htr : truthy v <;>
                simp [runRead, hle, hj, hx, eventsOf, successThen, renderEvents, htr]
  · intro b t o hmem hne
    cases b with
    | never =>
      left
      simp [runRead, eventsOf, catchBranch, errName]
    | settles ts r =>
      by_cases hle : readDeadline ≤ ts
      · left
        simp [runRead, hle, eventsOf, catchBranch, errName]
      · cases r with
        | error e =>
          by_cases hab : errName e = "AbortError"
          · left
            simp [runRead, hle, eventsOf, catchBranch, hab]
          · right
            simp [runRead, hle, eventsOf, catchBranch, hab]
        | ok resp =>
          cases hj : resp.jsonBody with
          | error e =>
            by_cases hab : errName e = "AbortError"
            · left
              simp [runRead, hle, hj, eventsOf, catchBranch, hab]
            · right
              simp [runRead, hle, hj, eventsOf, catchBranch, hab]
          | ok data =>
            cases hx : extractDiscussion data with
            | error e =>
              by_cases hab : errName e = "AbortError"
              · left
                simp [runRead, hle, hj, hx, eventsOf, successThen, catchBranch, hab]
              · right
                simp [runRead, hle, hj, hx, eventsOf, successThen, catchBranch, hab]
            | ok v =>
              exfalso
              apply hne
              have : outcomesOf (runRead (.settles ts (.ok resp))) =
                  [(ts, Outcome.success)] := by
                by_cases htr : truthy v <;>
                  simp [runRead, hle, hj, hx, outcomesOf, successThen,
                    renderEvents, htr]
              rw [this] at hmem
              simp at hmem
              exact hmem.2
  · intro resp did s
    simp [runSubmit]
  · intro e did s
    simp [runSubmit]

/-- C4 witness: the amended theorem instantiated at a concrete read failure
trace and a concrete write rejection. -/
theorem c4_witness :
    (Event.uncaughtError ∉
      eventsOf (runRead (.settles 100 (.error (.networkError "refused"))))) ∧
    (Event.consoleWarn "Comments request timed out" ∈ eventsOf (runRead .never) ∨
      Event.consoleError "Failed to load comments" ∈ eventsOf (runRead .never)) ∧
    Event.uncaughtError ∈ runSubmit (.rejects .syntaxError) "D_kwDOx" "hi" := by
  refine ⟨c4_error_containment.1 _, ?_, c4_error_containment.2.2.2 _ _ _⟩
  exact c4_error_containment.2.1 .never readDeadline Outcome.timeout
    (by decide) (by decide)

/-- C5: the renderer maps an empty thread to exactly the placeholder node (and
a placeholder is never a comment node); a thread with comments A then B, where
A has the single reply X and B none, renders the two comment nodes in order,
with exactly the reply node of X inside the replies container of A and an
empty replies container inside B. In general the section children are the
comment nodes in server order and each replies container holds the reply
nodes in server order. -/
theorem c5_renderer_structure :
    ∀ (now : Int) (i ti bd : String) (A B : Comment) (X : Reply),
      renderCommentsSection now ⟨i, ti, bd, []⟩ =
        .el "section" [("id", "comments")] [placeholderNode] ∧
      (∀ c, placeholderNode ≠ commentNode now c) ∧
      (renderCommentsSection now ⟨i, ti, bd,
          [Comment.mk A.id A.body A.createdAt A.author [X],
           Comment.mk B.id B.body B.createdAt B.author []]⟩ =
        .el "section" [("id", "comments")]
          [commentNode now (Comment.mk A.id A.body A.createdAt A.author [X]),
           commentNode now (Comment.mk B.id B.body B.createdAt B.author [])]) ∧
      findReplies 32 [commentNode now (Comment.mk A.id A.body A.createdAt A.author [X])] =
        some [replyNode X] ∧
      findReplies 32 [commentNode now (Comment.mk B.id B.body B.createdAt B.author [])] =
        some [] ∧
      (∀ d : Discussion, d.comments ≠ [] →
        renderCommentsSection now d =
          .el "section" [("id", "comments")] (d.comments.map (commentNode now))) ∧
      (∀ c : Comment, findReplies 32 [commentNode now c] =
        some (c.replies.map replyNode)) := by
  intro now i ti bd A B X
  refine ⟨rfl, ?_, ?_, rfl, rfl, ?_, ?_⟩
  · intro c
    simp [placeholderNode, commentNode]
  · rfl
  · intro d hd
    have : d.comments.length ≠ 0 := by
      intro h
      exact hd (List.length_eq_zero.1 h)
    simp [renderCommentsSection, this]
  · intro c
    exact findReplies_commentNode now c

/-- C5 witness: the general clauses instantiated at a concrete discussion. -/
theorem c5_witness :
    renderCommentsSection 0 ⟨"D1", "t", "b",
        [Comment.mk "C1" "hi" 0 ⟨"ann", "u"⟩ []]⟩ =
      .el "section" [("id", "comments")]
        ([Comment.mk "C1" "hi" 0 ⟨"ann", "u"⟩ []].map (commentNode 0)) :=
  (c5_renderer_structure 0 "D1" "t" "b"
      (Comment.mk "C1" "hi" 0 ⟨"ann", "u"⟩ [])
      (Comment.mk "C1" "hi" 0 ⟨"ann", "u"⟩ [])
      ⟨"R1", "r", ⟨"ann", "u"⟩⟩).2.2.2.2.2.1
    ⟨"D1", "t", "b", [Comment.mk "C1" "hi" 0 ⟨"ann", "u"⟩ []]⟩ (List.cons_ne_nil _ _)

/-- C6: for every nonnegative timestamp difference the formatter returns
exactly the four-bucket mapping, inclusive on each lower bound, and the seven
boundary cases evaluate as the claim lists them. -/
theorem c6_timeAgo_buckets :
    (∀ thenMs nowMs : Int, thenMs ≤ nowMs →
      timeAgo thenMs nowMs = specBuckets ((nowMs - thenMs).toNat / 1000)) ∧
    timeAgo 0 0 = "0s ago" ∧
    timeAgo 0 59000 = "59s ago" ∧
    timeAgo 0 60000 = "1m ago" ∧
    timeAgo 0 3599000 = "59m ago" ∧
    timeAgo 0 3600000 = "1h ago" ∧
    timeAgo 0 86399000 = "23h ago" ∧
    timeAgo 0 86400000 = "1d ago" := by
  refine ⟨?_, rfl, rfl, rfl, rfl, rfl, rfl, rfl⟩
  intro thenMs nowMs h
  have hnn : 0 ≤ nowMs - thenMs := by omega
  have hcast : nowMs - thenMs = Int.ofNat ((nowMs - thenMs).toNat) :=
    (Int.toNat_of_nonneg hnn).symm
  show timeAgoMs (nowMs - thenMs) = _
  conv_lhs => rw [hcast]
  rw [timeAgoMs_ofNat]

/-- C6 witness: the general bucket mapping applied at the exact 60-second
boundary. -/
theorem c6_witness :
    timeAgo 0 60000 = specBuckets (((60000 : Int) - 0).toNat / 1000) :=
  c6_timeAgo_buckets.1 0 60000 (by decide)

/-- C7: the query builder is the fixed template with the decimal numeral
interpolated; the numeral in its discussion-number position (preceded by the
marker text and followed by the closing parenthesis) occurs exactly once in
the document, as does the marker itself, and the document is syntactically
valid GraphQL for every discussion number. -/
theorem c7_query_builder (n : Nat) :
    query n = queryPre ++ natToString n ++ queryPost ∧
    countOccur (patPos n) (query n).data = 1 ∧
    countOccur numberMarker.data (query n).data = 1 ∧
    validGraphQL (query n) = true :=
  ⟨rfl, countOccur_patPos n, countOccur_marker_query n, valid_query n⟩

/-- C8 counterexample: on a write-path transport failure the submit trace is
the single POST followed by the escaping rejection — no reload event occurs,
contradicting that the page is reloaded regardless. -/
theorem c8_counterexample :
    runSubmit (.rejects (.networkError "refused")) "D_kwDOc8" "hi" =
      [.postSent (apiBase ++ "/api/comment") "D_kwDOc8" "hi", .uncaughtError] ∧
    Event.reload ∉ runSubmit (.rejects (.networkError "refused")) "D_kwDOc8" "hi" := by
  refine ⟨rfl, by decide⟩

/-- C8 amended: every submit attempts exactly one POST of
`{discussionId, body}` to the fixed proxy base plus `/api/comment`; the page
is never reloaded (the reload of the draft is commented out), and a failed
submission produces only the POST and the escaping rejection — no feedback. -/
theorem c8_submit_behavior :
    ∀ (b : WriteBehavior) (did s : String),
      (runSubmit b did s).filter isPost =
        [.postSent (apiBase ++ "/api/comment") did s] ∧
      Event.reload ∉ runSubmit b did s ∧
      ∀ e : JsErr, runSubmit (.rejects e) did s =
        [.postSent (apiBase ++ "/api/comment") did s, .uncaughtError] := by
  intro b did s
  refine ⟨?_, ?_, fun e => rfl⟩
  · cases b <;> simp [runSubmit, isPost]
  · cases b <;> simp [runSubmit]

/-- C9: the read path is configured solely by the script-tag dataset: the
bearer header is built from the `data-token` attribute, the query sent is the
fixed template with exactly the `data-discussion` attribute value in the
number position, and the query determines that attribute value uniquely. -/
theorem c9_dataset_configuration :
    ∀ ds : ScriptDataset,
      (readRequest ds).queryBody = queryPre ++ ds.discussion ++ queryPost ∧
      (readRequest ds).authHeader = "Bearer " ++ ds.token ∧
      (readRequest ds).url = "https://api.github.com/graphql" ∧
      (readRequest ds).method = "POST" ∧
      ∀ d1 d2 : ScriptDataset,
        queryOfDataset d1 = queryOfDataset d2 → d1.discussion = d2.discussion := by
  intro ds
  refine ⟨rfl, rfl, rfl, rfl, ?_⟩
  intro d1 d2 h
  have hd := congrArg String.data h
  simp only [queryOfDataset, String.data_append, List.append_assoc] at hd
  have h1 := List.append_cancel_left hd
  have h2 := List.append_cancel_right h1
  exact String.ext h2

/-- C9 witness: the configuration theorem at a concrete dataset, with the
query-determines-attribute clause discharged at concrete values. -/
theorem c9_witness :
    (readRequest ⟨"tok", "42"⟩).queryBody = queryPre ++ "42" ++ queryPost ∧
    (⟨"tokA", "7"⟩ : ScriptDataset).discussion =
      (⟨"tokB", "7"⟩ : ScriptDataset).discussion :=
  ⟨(c9_dataset_configuration ⟨"tok", "42"⟩).1,
    (c9_dataset_configuration ⟨"tok", "42"⟩).2.2.2.2 ⟨"tokA", "7"⟩ ⟨"tokB", "7"⟩ rfl⟩

/-- C10: a strictly future timestamp gives a negative floored second
difference; the formatter never selects the minute, hour or day bucket for
it and returns the signed seconds string. -/
theorem c10_negative_difference :
    ∀ thenMs nowMs : Int, nowMs < thenMs →
      (nowMs - thenMs).fdiv 1000 < 0 ∧
      timeAgo thenMs nowMs = intToString ((nowMs - thenMs).fdiv 1000) ++ "s ago" := by
  intro thenMs nowMs h
  have hneg : nowMs - thenMs < 0 := by omega
  obtain ⟨k, hk⟩ : ∃ k, nowMs - thenMs = Int.negSucc k := by
    cases hd : nowMs - thenMs with
    | ofNat m =>
      exfalso
      rw [hd] at hneg
      exact absurd hneg (by exact Int.not_lt.2 (Int.ofNat_zero_le m))
    | negSucc k => exact ⟨k, rfl⟩
  have hfd : (nowMs - thenMs).fdiv 1000 = Int.negSucc (k / 1000) := by
    rw [hk]
    rfl
  have hlt : Int.negSucc (k / 1000) < 0 := Int.negSucc_lt_zero _
  refine ⟨by rw [hfd]; exact hlt, ?_⟩
  show timeAgoMs (nowMs - thenMs) = _
  unfold timeAgoMs
  rw [hfd]
  have hcond : Int.negSucc (k / 1000) < 60 :=
    lt_trans hlt (by decide)
  rw [if_pos hcond]

/-- C10 witness: five seconds in the future renders as a negative seconds
string, never a minute, hour or day bucket. -/
theorem c10_witness :
    ((0 : Int) - 5000).fdiv 1000 < 0 ∧
    timeAgo 5000 0 = intToString (((0 : Int) - 5000).fdiv 1000) ++ "s ago" :=
  c10_negative_difference 5000 0 (by decide)

end CommentsWidget
